import Mathlib

/-!
Shallow embedding of `src/csv_generator.py` (the whole repository is this one
file).  The Python program draws from the global `random` module and writes
CSV records through `csv.writer` to a file opened with `open(file_name, "w",
newline="")`.

Modelling choices:

* Randomness: the global RNG is modelled as a stream `g : ℕ → ℕ` of raw
  draws together with a cursor `p : ℕ`; each library primitive
  (`random.choice`, `random.randint`, `random.random`, `random.choices`)
  consumes draws from the stream and is defined from its documented
  contract (e.g. `randint a b` returns `a + (draw mod (b - a + 1))`, a value
  in the closed interval `[a, b]`).
* Strings are `List Char`; Python floats are modelled as rationals (the
  value of `random.uniform(a, b)` is `a + (b - a) * u` with
  `u = draw mod 2^53 / 2^53`, mirroring CPython's
  `uniform = a + (b-a)*random()`), and the serialisation `str(float)` is a
  parameter `fr : ℚ → List Char` of the embedding, since it is implemented
  by the host runtime and not by this repository.
* The file system is modelled by a predicate `openOk : String → Bool`
  saying whether `open(file_name, "w")` succeeds; on failure the Python
  exception surfaces as `Except.error FileWriteError.mk`.
* `csv.writer` with the default dialect (delimiter `,`, quote char `"`,
  `QUOTE_MINIMAL`, line terminator CRLF) is embedded by `quoteField`,
  `joinComma` and `writerow`.
-/

namespace CsvGen

/-- The three column types of `column_types = ['integer', 'float', 'text']`. -/
inductive ColType where
  | integer
  | float
  | text
deriving DecidableEq

/-- A generated cell value, before serialisation. -/
inductive Value where
  | int (i : ℤ)
  | float (q : ℚ)
  | text (s : List Char)
deriving DecidableEq

/-- `column_types = ['integer', 'float', 'text']`. -/
def column_types : List ColType := [ColType.integer, ColType.float, ColType.text]

/-- The decimal digit characters. -/
def digitList : List Char := ['0', '1', '2', '3', '4', '5', '6', '7', '8', '9']

/-- The character of a decimal digit. -/
def digitChar (d : ℕ) : Char := digitList.getD d '0'

/-- Python's `str` on a natural number: decimal notation. -/
def natChars (n : ℕ) : List Char :=
  if n = 0 then ['0'] else ((Nat.digits 10 n).map digitChar).reverse

/-- Python's `str` on an integer: decimal notation with a leading minus sign. -/
def intChars (i : ℤ) : List Char :=
  if i < 0 then '-' :: natChars i.natAbs else natChars i.toNat

/-- `string.ascii_letters`. -/
def ascii_letters : List Char :=
  ['a', 'b', 'c', 'd', 'e', 'f', 'g', 'h', 'i', 'j', 'k', 'l', 'm',
   'n', 'o', 'p', 'q', 'r', 's', 't', 'u', 'v', 'w', 'x', 'y', 'z',
   'A', 'B', 'C', 'D', 'E', 'F', 'G', 'H', 'I', 'J', 'K', 'L', 'M',
   'N', 'O', 'P', 'Q', 'R', 'S', 'T', 'U', 'V', 'W', 'X', 'Y', 'Z']

/-- `random.randint(a, b)`: one draw, a value in the closed interval `[a, b]`. -/
def randint (g : ℕ → ℕ) (p : ℕ) (a b : ℤ) : ℤ × ℕ :=
  (a + ((g p % (b - a + 1).toNat : ℕ) : ℤ), p + 1)

/-- `random.random()`: one draw, a rational in `[0, 1)` with 53-bit resolution. -/
def random01 (g : ℕ → ℕ) (p : ℕ) : ℚ × ℕ :=
  (((g p % 2 ^ 53 : ℕ) : ℚ) / 2 ^ 53, p + 1)

/-- `random.uniform(a, b) = a + (b - a) * random()` (CPython's definition),
in exact rational arithmetic. -/
def uniform (g : ℕ → ℕ) (p : ℕ) (a b : ℚ) : ℚ × ℕ :=
  let r := random01 g p
  (a + (b - a) * r.1, r.2)

/-- `sys.float_info.min`: the smallest positive normal double, `2 ^ (-1022)`. -/
def float_info_min : ℚ := 1 / 2 ^ 1022

/-- `sys.float_info.max`: the largest finite double, `(2 ^ 53 - 1) * 2 ^ 971`. -/
def float_info_max : ℚ := (2 ^ 53 - 1) * 2 ^ 971

/-- `random.choices(string.ascii_letters, k=n)`: `n` draws, each selecting one
letter of the population. -/
def choices (g : ℕ → ℕ) (p : ℕ) : ℕ → List Char
  | 0 => []
  | k + 1 => ascii_letters.getD (g p % ascii_letters.length) 'a' :: choices g (p + 1) k

/-- The body of the per-type lambdas bound in the `for i in range(num_columns)`
loop (lines 23-28 of the source): each invocation consumes draws starting at
cursor `p` and returns the value together with the new cursor. -/
def genValue (g : ℕ → ℕ) (p : ℕ) : ColType → Value × ℕ
  | ColType.integer =>
      let r := randint g p (-1000000) 1000000
      (Value.int r.1, r.2)
  | ColType.float =>
      let r := uniform g p float_info_min float_info_max
      (Value.float r.1, r.2)
  | ColType.text =>
      let r := randint g p 5 20
      (Value.text (choices g r.2 r.1.toNat), r.2 + r.1.toNat)

/-- The `random.choice(column_types)` draws of the column-typing loop, one per
column, in loop order. -/
def chooseColumns (g : ℕ → ℕ) (p : ℕ) : ℕ → List ColType × ℕ
  | 0 => ([], p)
  | n + 1 =>
      let t := column_types.getD (g p % column_types.length) ColType.integer
      let r := chooseColumns g (p + 1) n
      (t :: r.1, r.2)

/-- `header_label i t` is the final value of `column_headers[i]`:
`f"column{i+1}" + f"_{column_type}"`. -/
def typeName : ColType → List Char
  | ColType.integer => ['i', 'n', 't', 'e', 'g', 'e', 'r']
  | ColType.float => ['f', 'l', 'o', 'a', 't']
  | ColType.text => ['t', 'e', 'x', 't']

/-- The header label of column `i` (0-indexed) with type `t`. -/
def header_label (i : ℕ) (t : ColType) : List Char :=
  ['c', 'o', 'l', 'u', 'm', 'n'] ++ natChars (i + 1) ++ '_' :: typeName t

/-- The header labels of all columns, starting at column index `k`. -/
def column_headers_from (k : ℕ) : List ColType → List (List Char)
  | [] => []
  | t :: ts => header_label k t :: column_headers_from (k + 1) ts

/-- `column_headers` after the typing loop: one label per column, in order. -/
def column_headers (ts : List ColType) : List (List Char) :=
  column_headers_from 0 ts

/-- `row = [gen() for gen in column_generators]` (line 34): one value per
column, consuming the stream left to right. -/
def genRow (g : ℕ → ℕ) (p : ℕ) : List ColType → List Value × ℕ
  | [] => ([], p)
  | t :: ts =>
      let v := genValue g p t
      let r := genRow g v.2 ts
      (v.1 :: r.1, r.2)

/-- The `for _ in range(num_rows)` loop (lines 33-35): the list of generated
rows, in generation order. -/
def genRows (g : ℕ → ℕ) (p : ℕ) (ts : List ColType) : ℕ → List (List Value) × ℕ
  | 0 => ([], p)
  | n + 1 =>
      let r := genRow g p ts
      let rest := genRows g r.2 ts n
      (r.1 :: rest.1, rest.2)

/-- Serialisation of one cell by `csv.writer`: `str` on the value.  The float
case is the runtime's `repr` of a double, passed in as `fr`. -/
def serializeValue (fr : ℚ → List Char) : Value → List Char
  | Value.int i => intChars i
  | Value.float q => fr q
  | Value.text s => s

/-- A character that forces quoting under `QUOTE_MINIMAL` with the default
dialect: the delimiter, the quote character, or a line-break character. -/
def isSpecial (c : Char) : Bool :=
  c = ',' || c = '"' || c = '\r' || c = '\n'

/-- Quote-escaping: each embedded quote character is doubled. -/
def escapeQuotes (s : List Char) : List Char :=
  s.flatMap fun c => if c = '"' then ['"', '"'] else [c]

/-- `csv.writer`'s `QUOTE_MINIMAL` field encoding: quote (and escape) exactly
when the field contains a special character. -/
def quoteField (s : List Char) : List Char :=
  if s.any isSpecial then '"' :: escapeQuotes s ++ ['"'] else s

/-- Join fields with the `,` delimiter. -/
def joinComma : List (List Char) → List Char
  | [] => []
  | [f] => f
  | f :: f' :: fs => f ++ ',' :: joinComma (f' :: fs)

/-- `writer.writerow(fields)`: encode each field, join with commas, terminate
with CRLF (the default `lineterminator`, kept verbatim by `newline=""`). -/
def writerow (fields : List (List Char)) : List Char :=
  joinComma (fields.map quoteField) ++ ['\r', '\n']

/-- A comma-join with no quoting at all (what the output degenerates to when
no field needs quoting). -/
def plainWriterow (fields : List (List Char)) : List Char :=
  joinComma fields ++ ['\r', '\n']

/-- Splitting a record body on the delimiter: the CSV-unescaping of an
unquoted record. -/
def splitComma : List Char → List (List Char)
  | [] => [[]]
  | c :: cs =>
      if c = ',' then [] :: splitComma cs
      else
        match splitComma cs with
        | [] => [[c]]
        | f :: fs => (c :: f) :: fs

/-- The single error kind of the spec's taxonomy: any failure to open or
write the destination file. -/
inductive FileWriteError where
  | mk
deriving DecidableEq

/-- `generate_csv(file_name, num_columns, num_rows)`.

The Python function first runs the typing loop (consuming one draw per
column), then opens the file — an open failure raises, surfacing as
`FileWriteError` — writes the header record, and writes `num_rows` data
records.  `range` of a negative count is empty, modelled by `Int.toNat`.
The result is the list of written records, in order; the file's content is
their concatenation. -/
def generate_csv (openOk : String → Bool) (fr : ℚ → List Char) (g : ℕ → ℕ)
    (file_name : String) (num_columns : ℤ) (num_rows : ℤ) :
    Except FileWriteError (List (List Char)) :=
  let c := chooseColumns g 0 num_columns.toNat
  if openOk file_name then
    Except.ok
      (writerow (column_headers c.1) ::
        (genRows g c.2 c.1 num_rows.toNat).1.map
          fun row => writerow (row.map (serializeValue fr)))
  else Except.error FileWriteError.mk

/-- The file content: the concatenation of the written records. -/
def fileContent (records : List (List Char)) : List Char :=
  records.flatten

/-- The `__main__` block: literal defaults. -/
def main_file_name : String := "random_data.csv"

/-- The `__main__` block: literal default column count. -/
def main_num_columns : ℤ := 5

/-- The `__main__` block: literal default row count. -/
def main_num_rows : ℤ := 10000

/-- Running the script with no arguments: `generate_csv(file_name, num_columns,
num_rows)` with the three literals of lines 39-41. -/
def main_run (openOk : String → Bool) (fr : ℚ → List Char) (g : ℕ → ℕ) :
    Except FileWriteError (List (List Char)) :=
  generate_csv openOk fr g main_file_name main_num_columns main_num_rows

/-- A cell value is of a column type when the constructor matches the tag. -/
def hasType : Value → ColType → Bool
  | Value.int _, ColType.integer => true
  | Value.float _, ColType.float => true
  | Value.text _, ColType.text => true
  | _, _ => false

/-- A float serialiser is well-behaved when it never emits a character that
triggers CSV quoting (true of Python's `repr` of a finite double, whose
alphabet is digits, `.`, `e`, `+`, `-`). -/
def okFloatRepr (fr : ℚ → List Char) : Prop :=
  ∀ q : ℚ, ∀ c ∈ fr q, isSpecial c = false

/-- A concrete random stream for sample runs: every draw is 0. -/
def g0 : ℕ → ℕ := fun _ => 0

/-- A concrete float serialiser for sample runs, emitting only characters from
the alphabet of Python's float `repr`. -/
def fr0 : ℚ → List Char := fun _ => ['0', '.', '5']

/-- A concrete file system in which every open succeeds. -/
def openT : String → Bool := fun _ => true

/-! ### Character-level facts -/

theorem fr0_ok : okFloatRepr fr0 := by
  intro q c hc
  simp only [fr0, List.mem_cons, List.not_mem_nil, or_false] at hc
  rcases hc with rfl | rfl | rfl <;> decide

theorem getD_mem_or_eq {α : Type} (l : List α) (n : ℕ) (d : α) :
    l.getD n d ∈ l ∨ l.getD n d = d := by
  induction l generalizing n with
  | nil => exact Or.inr rfl
  | cons x xs ih =>
    cases n with
    | zero => exact Or.inl (List.mem_cons_self x xs)
    | succ n =>
      rcases ih n with h | h
      · exact Or.inl (List.mem_cons_of_mem x h)
      · exact Or.inr h

theorem digitChar_mem (d : ℕ) : digitChar d ∈ digitList := by
  unfold digitChar
  rcases getD_mem_or_eq digitList d '0' with h | h
  · exact h
  · rw [h]; decide

theorem mem_natChars {n : ℕ} {c : Char} (hc : c ∈ natChars n) : c ∈ digitList := by
  unfold natChars at hc
  split at hc
  · simp only [List.mem_singleton] at hc
    rw [hc]; decide
  · rw [List.mem_reverse] at hc
    rcases List.mem_map.mp hc with ⟨d, _, rfl⟩
    exact digitChar_mem d

theorem mem_intChars {i : ℤ} {c : Char} (hc : c ∈ intChars i) :
    c ∈ digitList ∨ c = '-' := by
  unfold intChars at hc
  split at hc
  · rcases List.mem_cons.mp hc with h | h
    · exact Or.inr h
    · exact Or.inl (mem_natChars h)
  · exact Or.inl (mem_natChars hc)

theorem digit_not_special : ∀ c ∈ digitList, isSpecial c = false := by decide

theorem letter_not_special : ∀ c ∈ ascii_letters, isSpecial c = false := by decide

theorem letter_isAlpha : ∀ c ∈ ascii_letters, c.isAlpha = true := by decide

theorem intChars_not_special (i : ℤ) : ∀ c ∈ intChars i, isSpecial c = false := by
  intro c hc
  rcases mem_intChars hc with h | h
  · exact digit_not_special c h
  · rw [h]; decide

theorem isSpecial_false_iff (c : Char) :
    isSpecial c = false ↔ c ≠ ',' ∧ c ≠ '"' ∧ c ≠ '\r' ∧ c ≠ '\n' := by
  simp [isSpecial, and_assoc]

theorem typeName_not_special (t : ColType) : ∀ c ∈ typeName t, isSpecial c = false := by
  cases t <;> decide

theorem header_label_not_special (i : ℕ) (t : ColType) :
    ∀ c ∈ header_label i t, isSpecial c = false := by
  intro c hc
  unfold header_label at hc
  rcases List.mem_append.mp hc with h | h
  · rcases List.mem_append.mp h with h' | h'
    · have hall : ∀ x ∈ (['c', 'o', 'l', 'u', 'm', 'n'] : List Char),
          isSpecial x = false := by decide
      exact hall c h'
    · exact digit_not_special c (mem_natChars h')
  · rcases List.mem_cons.mp h with h' | h'
    · rw [h']; decide
    · exact typeName_not_special t c h'

/-! ### Structure of the generation pipeline -/

theorem chooseColumns_length (g : ℕ → ℕ) (p n : ℕ) :
    ((chooseColumns g p n).1).length = n := by
  induction n generalizing p with
  | zero => rfl
  | succ n ih => simp [chooseColumns, ih]

theorem genRow_length (g : ℕ → ℕ) (ts : List ColType) (p : ℕ) :
    ((genRow g p ts).1).length = ts.length := by
  induction ts generalizing p with
  | nil => rfl
  | cons t ts ih => simp [genRow, ih]

theorem genRows_length (g : ℕ → ℕ) (ts : List ColType) (n p : ℕ) :
    ((genRows g p ts n).1).length = n := by
  induction n generalizing p with
  | zero => rfl
  | succ n ih => simp [genRows, ih]

theorem genRows_rows (g : ℕ → ℕ) (ts : List ColType) :
    ∀ n p row, row ∈ (genRows g p ts n).1 → ∃ q, row = (genRow g q ts).1 := by
  intro n
  induction n with
  | zero => intro p row h; exact absurd h (List.not_mem_nil row)
  | succ n ih =>
    intro p row h
    rcases List.mem_cons.mp h with h' | h'
    · exact ⟨p, h'⟩
    · exact ih _ row h'

theorem genRow_cells (g : ℕ → ℕ) :
    ∀ (ts : List ColType) (p : ℕ) (v : Value), v ∈ (genRow g p ts).1 →
      ∃ q t, t ∈ ts ∧ v = (genValue g q t).1 := by
  intro ts
  induction ts with
  | nil => intro p v h; exact absurd h (List.not_mem_nil v)
  | cons t ts ih =>
    intro p v h
    rcases List.mem_cons.mp h with h' | h'
    · exact ⟨p, t, List.mem_cons_self t ts, h'⟩
    · rcases ih _ v h' with ⟨q, t', ht', hv⟩
      exact ⟨q, t', List.mem_cons_of_mem t ht', hv⟩

theorem choices_length (g : ℕ → ℕ) : ∀ (k p : ℕ), (choices g p k).length = k := by
  intro k
  induction k with
  | zero => intro p; rfl
  | succ k ih => intro p; simp [choices, ih]

theorem choices_mem (g : ℕ → ℕ) :
    ∀ (k p : ℕ), ∀ c ∈ choices g p k, c ∈ ascii_letters := by
  intro k
  induction k with
  | zero => intro p c hc; exact absurd hc (List.not_mem_nil c)
  | succ k ih =>
    intro p c hc
    rcases List.mem_cons.mp hc with h | h
    · rcases getD_mem_or_eq ascii_letters (g p % ascii_letters.length) 'a' with h' | h'
      · rw [h]; exact h'
      · rw [h, h']; decide
    · exact ih _ c h

theorem randint_bounds (g : ℕ → ℕ) (p : ℕ) (a b : ℤ) (hab : a ≤ b) :
    a ≤ (randint g p a b).1 ∧ (randint g p a b).1 ≤ b := by
  unfold randint
  have h1 : 0 < (b - a + 1).toNat := by omega
  have h2 : g p % (b - a + 1).toNat < (b - a + 1).toNat := Nat.mod_lt _ h1
  constructor
  · have : (0 : ℤ) ≤ ((g p % (b - a + 1).toNat : ℕ) : ℤ) := Int.ofNat_nonneg _
    omega
  · have : ((g p % (b - a + 1).toNat : ℕ) : ℤ) < ((b - a + 1).toNat : ℤ) := by
      exact_mod_cast h2
    omega

theorem genValue_hasType (g : ℕ → ℕ) (p : ℕ) (t : ColType) :
    hasType (genValue g p t).1 t = true := by
  cases t <;> rfl

theorem genValue_int (g : ℕ → ℕ) (p : ℕ) (t : ColType) (i : ℤ)
    (h : (genValue g p t).1 = Value.int i) : -1000000 ≤ i ∧ i ≤ 1000000 := by
  cases t with
  | integer =>
    have hb := randint_bounds g p (-1000000) 1000000 (by norm_num)
    simp only [genValue] at h
    have : (randint g p (-1000000) 1000000).1 = i := Value.int.inj h
    omega
  | float => exact absurd h (by simp [genValue])
  | text => exact absurd h (by simp [genValue])

theorem genValue_text (g : ℕ → ℕ) (p : ℕ) (t : ColType) (s : List Char)
    (h : (genValue g p t).1 = Value.text s) :
    5 ≤ s.length ∧ s.length ≤ 20 ∧ ∀ c ∈ s, c ∈ ascii_letters := by
  cases t with
  | integer => exact absurd h (by simp [genValue])
  | float => exact absurd h (by simp [genValue])
  | text =>
    simp only [genValue] at h
    have hs : choices g (randint g p 5 20).2 (randint g p 5 20).1.toNat = s :=
      Value.text.inj h
    have hb := randint_bounds g p 5 20 (by norm_num)
    have hlen : s.length = (randint g p 5 20).1.toNat := by
      rw [← hs, choices_length]
    refine ⟨by omega, by omega, ?_⟩
    intro c hc
    rw [← hs] at hc
    exact choices_mem g _ _ c hc

/-! ### Header labels -/

theorem column_headers_from_length :
    ∀ (ts : List ColType) (k : ℕ), (column_headers_from k ts).length = ts.length := by
  intro ts
  induction ts with
  | nil => intro k; rfl
  | cons t ts ih => intro k; simp [column_headers_from, ih]

theorem column_headers_from_getD :
    ∀ (ts : List ColType) (k i : ℕ), i < ts.length →
      (column_headers_from k ts).getD i [] =
        header_label (k + i) (ts.getD i ColType.integer) := by
  intro ts
  induction ts with
  | nil => intro k i hi; exact absurd hi (by simp)
  | cons t ts ih =>
    intro k i hi
    cases i with
    | zero => rfl
    | succ i =>
      have h2 := ih (k + 1) i (by simpa using hi)
      have e : k + 1 + i = k + (i + 1) := by omega
      rw [e] at h2
      exact h2

theorem column_headers_getD (ts : List ColType) (i : ℕ) (hi : i < ts.length) :
    (column_headers ts).getD i [] = header_label i (ts.getD i ColType.integer) := by
  have := column_headers_from_getD ts 0 i hi
  simpa [column_headers] using this

theorem typeName_inj {t t' : ColType} (h : typeName t = typeName t') : t = t' := by
  cases t <;> cases t' <;> first | rfl | exact absurd h (by decide)

theorem header_label_inj {i : ℕ} {t t' : ColType}
    (h : header_label i t = header_label i t') : t = t' := by
  unfold header_label at h
  rw [List.append_assoc, List.append_assoc] at h
  have h1 := List.append_cancel_left h
  have h2 := List.append_cancel_left h1
  have h3 : typeName t = typeName t' := by
    injection h2
  exact typeName_inj h3

theorem column_headers_clean :
    ∀ (ts : List ColType) (k : ℕ), ∀ f ∈ column_headers_from k ts,
      ∀ c ∈ f, isSpecial c = false := by
  intro ts
  induction ts with
  | nil => intro k f hf; exact absurd hf (List.not_mem_nil f)
  | cons t ts ih =>
    intro k f hf
    rcases List.mem_cons.mp hf with h | h
    · rw [h]; exact header_label_not_special k t
    · exact ih (k + 1) f h

/-! ### Per-index typing of generated rows -/

theorem genRow_hasType (g : ℕ → ℕ) :
    ∀ (ts : List ColType) (p i : ℕ), i < ts.length →
      hasType ((genRow g p ts).1.getD i (Value.int 0)) (ts.getD i ColType.integer)
        = true := by
  intro ts
  induction ts with
  | nil => intro p i hi; exact absurd hi (by simp)
  | cons t ts ih =>
    intro p i hi
    cases i with
    | zero =>
      show hasType (genValue g p t).1 t = true
      exact genValue_hasType g p t
    | succ i =>
      have := ih (genValue g p t).2 i (by simpa using hi)
      exact this

/-! ### CSV record encoding -/

theorem mem_joinComma :
    ∀ (fs : List (List Char)) (c : Char), c ∈ joinComma fs →
      c = ',' ∨ ∃ f ∈ fs, c ∈ f := by
  intro fs
  induction fs with
  | nil => intro c hc; exact absurd hc (List.not_mem_nil c)
  | cons f fs ih =>
    intro c hc
    cases fs with
    | nil =>
      right
      exact ⟨f, List.mem_cons_self f [], hc⟩
    | cons f' fs' =>
      rw [show joinComma (f :: f' :: fs') = f ++ ',' :: joinComma (f' :: fs') from rfl]
        at hc
      rcases List.mem_append.mp hc with h | h
      · exact Or.inr ⟨f, List.mem_cons_self f _, h⟩
      · rcases List.mem_cons.mp h with h' | h'
        · exact Or.inl h'
        · rcases ih c h' with h'' | ⟨f'', hf'', hc''⟩
          · exact Or.inl h''
          · exact Or.inr ⟨f'', List.mem_cons_of_mem f hf'', hc''⟩

theorem quoteField_eq_self {s : List Char} (h : ∀ c ∈ s, isSpecial c = false) :
    quoteField s = s := by
  unfold quoteField
  rw [if_neg]
  simp only [List.any_eq_true, not_exists, not_and]
  intro c hc
  rw [h c hc]
  simp

theorem writerow_eq_plain {fields : List (List Char)}
    (h : ∀ f ∈ fields, ∀ c ∈ f, isSpecial c = false) :
    writerow fields = plainWriterow fields := by
  unfold writerow plainWriterow
  have h1 : fields.map quoteField = fields.map id :=
    List.map_congr_left fun f hf => quoteField_eq_self (h f hf)
  rw [h1, List.map_id]

theorem splitComma_no_comma :
    ∀ (f : List Char), (∀ c ∈ f, c ≠ ',') → splitComma f = [f] := by
  intro f
  induction f with
  | nil => intro _; rfl
  | cons c cs ih =>
    intro h
    have hc : c ≠ ',' := h c (List.mem_cons_self c cs)
    have hcs := ih fun x hx => h x (List.mem_cons_of_mem c hx)
    simp [splitComma, hc, hcs]

theorem splitComma_append :
    ∀ (f r : List Char), (∀ c ∈ f, c ≠ ',') →
      splitComma (f ++ ',' :: r) = f :: splitComma r := by
  intro f
  induction f with
  | nil => intro r _; simp [splitComma]
  | cons c cs ih =>
    intro r h
    have hc : c ≠ ',' := h c (List.mem_cons_self c cs)
    have hcs := ih r fun x hx => h x (List.mem_cons_of_mem c hx)
    simp [splitComma, hc, hcs]

theorem splitComma_joinComma :
    ∀ (fs : List (List Char)), fs ≠ [] → (∀ f ∈ fs, ∀ c ∈ f, c ≠ ',') →
      splitComma (joinComma fs) = fs := by
  intro fs
  induction fs with
  | nil => intro h _; exact absurd rfl h
  | cons f fs ih =>
    intro _ h
    cases fs with
    | nil =>
      exact splitComma_no_comma f (h f (List.mem_cons_self f []))
    | cons f' fs' =>
      rw [show joinComma (f :: f' :: fs') = f ++ ',' :: joinComma (f' :: fs') from rfl]
      rw [splitComma_append f _ (h f (List.mem_cons_self f _))]
      rw [ih (by simp) fun x hx => h x (List.mem_cons_of_mem f hx)]

/-! ### Cleanliness of serialised cells -/

theorem serialize_genValue_clean (fr : ℚ → List Char) (hfr : okFloatRepr fr)
    (g : ℕ → ℕ) (q : ℕ) (t : ColType) :
    ∀ c ∈ serializeValue fr (genValue g q t).1, isSpecial c = false := by
  cases t with
  | integer =>
    intro c hc
    exact intChars_not_special _ c hc
  | float =>
    intro c hc
    exact hfr _ c hc
  | text =>
    intro c hc
    exact letter_not_special c (choices_mem g _ _ c hc)

theorem row_serialized_clean (fr : ℚ → List Char) (hfr : okFloatRepr fr)
    (g : ℕ → ℕ) (ts : List ColType) (n p : ℕ) :
    ∀ row ∈ (genRows g p ts n).1, ∀ f ∈ row.map (serializeValue fr),
      ∀ c ∈ f, isSpecial c = false := by
  intro row hrow f hf c hc
  rcases List.mem_map.mp hf with ⟨v, hv, rfl⟩
  rcases genRows_rows g ts n p row hrow with ⟨q, rfl⟩
  rcases genRow_cells g ts q v hv with ⟨q', t, _, rfl⟩
  exact serialize_genValue_clean fr hfr g q' t c hc

theorem writerow_clean_body {fields : List (List Char)}
    (h : ∀ f ∈ fields, ∀ c ∈ f, isSpecial c = false) :
    ∃ body, writerow fields = body ++ ['\r', '\n'] ∧
      ∀ c ∈ body, c ≠ '\r' ∧ c ≠ '\n' := by
  refine ⟨joinComma (fields.map quoteField), rfl, ?_⟩
  intro c hc
  rcases mem_joinComma _ c hc with h' | ⟨f, hf, hcf⟩
  · rw [h']; exact ⟨by decide, by decide⟩
  · rcases List.mem_map.mp hf with ⟨f0, hf0, rfl⟩
    have hclean := h f0 hf0
    rw [quoteField_eq_self hclean] at hcf
    have h2 := (isSpecial_false_iff c).mp (hclean c hcf)
    exact ⟨h2.2.2.1, h2.2.2.2⟩

/-! ### Claim theorems -/

/-- Claim C1: for every run of `generate_csv` with `num_columns > 0` and
`num_rows ≥ 0` (and a destination that opens), the written records are the
header record followed by the data records; header field `i` (0-indexed)
equals `column<i+1>_<t>` for exactly one type `t` of the three — namely the
type drawn for column `i` — and every value in column `i` of every data row
has that same type, for the whole run. -/
theorem c1_header_type_consistent
    (openOk : String → Bool) (fr : ℚ → List Char) (g : ℕ → ℕ) (file_name : String)
    (num_columns num_rows : ℤ) (hc : 0 < num_columns) (hr : 0 ≤ num_rows)
    (hopen : openOk file_name = true) :
    ∃ (ts : List ColType) (records : List (List Char)),
      ts = (chooseColumns g 0 num_columns.toNat).1 ∧
      ts.length = num_columns.toNat ∧
      generate_csv openOk fr g file_name num_columns num_rows = Except.ok records ∧
      records =
        writerow (column_headers ts) ::
          ((genRows g (chooseColumns g 0 num_columns.toNat).2 ts num_rows.toNat).1.map
            fun row => writerow (row.map (serializeValue fr))) ∧
      (∀ i, i < ts.length →
        (∃! t : ColType, (column_headers ts).getD i [] = header_label i t) ∧
        (column_headers ts).getD i [] = header_label i (ts.getD i ColType.integer)) ∧
      ∀ row ∈ (genRows g (chooseColumns g 0 num_columns.toNat).2 ts num_rows.toNat).1,
        row.length = ts.length ∧
        ∀ i, i < ts.length →
          hasType (row.getD i (Value.int 0)) (ts.getD i ColType.integer) = true := by
  refine ⟨(chooseColumns g 0 num_columns.toNat).1,
    writerow (column_headers (chooseColumns g 0 num_columns.toNat).1) ::
      ((genRows g (chooseColumns g 0 num_columns.toNat).2
          (chooseColumns g 0 num_columns.toNat).1 num_rows.toNat).1.map
        fun row => writerow (row.map (serializeValue fr))),
    rfl, chooseColumns_length g 0 _, ?_, rfl, ?_, ?_⟩
  · simp only [generate_csv, hopen, if_true]
  · intro i hi
    have hmain := column_headers_getD _ i hi
    refine ⟨⟨(chooseColumns g 0 num_columns.toNat).1.getD i ColType.integer, hmain, ?_⟩,
      hmain⟩
    intro t ht
    exact header_label_inj (ht.symm.trans hmain)
  · intro row hrow
    rcases genRows_rows g _ _ _ row hrow with ⟨q, rfl⟩
    exact ⟨genRow_length g _ q, fun i hi => genRow_hasType g _ q i hi⟩

/-- Claim C2: for every `num_columns > 0` and `num_rows ≥ 0`, a successful
run writes exactly `num_rows + 1` records, the header record first, then the
`num_rows` data records in generation order; each record is a body with no
embedded line break, terminated by CRLF, so the file has exactly
`num_rows + 1` lines; `num_rows = 0` yields the header record alone. -/
theorem c2_line_count
    (openOk : String → Bool) (fr : ℚ → List Char) (g : ℕ → ℕ) (file_name : String)
    (num_columns num_rows : ℤ) (hc : 0 < num_columns) (hr : 0 ≤ num_rows)
    (hopen : openOk file_name = true) (hfr : okFloatRepr fr) :
    ∃ (ts : List ColType) (records : List (List Char)),
      ts = (chooseColumns g 0 num_columns.toNat).1 ∧
      generate_csv openOk fr g file_name num_columns num_rows = Except.ok records ∧
      records.length = num_rows.toNat + 1 ∧
      records.getD 0 [] = writerow (column_headers ts) ∧
      records.tail =
        (genRows g (chooseColumns g 0 num_columns.toNat).2 ts num_rows.toNat).1.map
          (fun row => writerow (row.map (serializeValue fr))) ∧
      (num_rows = 0 → records = [writerow (column_headers ts)]) ∧
      ∀ l ∈ records, ∃ body, l = body ++ ['\r', '\n'] ∧
        ∀ c ∈ body, c ≠ '\r' ∧ c ≠ '\n' := by
  refine ⟨(chooseColumns g 0 num_columns.toNat).1,
    writerow (column_headers (chooseColumns g 0 num_columns.toNat).1) ::
      ((genRows g (chooseColumns g 0 num_columns.toNat).2
          (chooseColumns g 0 num_columns.toNat).1 num_rows.toNat).1.map
        fun row => writerow (row.map (serializeValue fr))),
    rfl, ?_, ?_, ?_, ?_, ?_, ?_⟩
  · simp only [generate_csv, hopen, if_true]
  · simp [genRows_length]
  · rfl
  · rfl
  · intro h0
    rw [h0]
    simp [genRows]
  · intro l hl
    rcases List.mem_cons.mp hl with h | h
    · rw [h]
      exact writerow_clean_body (column_headers_clean _ 0)
    · rcases List.mem_map.mp h with ⟨row, hrow, rfl⟩
      exact writerow_clean_body (row_serialized_clean fr hfr g _ _ _ row hrow)

/-- Claim C3: for every `num_columns > 0` and `num_rows ≥ 0`, every data
record written by a successful run is a CRLF-terminated body that CSV-unescapes
(here: splits on the delimiter, no field being quoted) into exactly
`num_columns` fields, in column-index order. -/
theorem c3_field_count
    (openOk : String → Bool) (fr : ℚ → List Char) (g : ℕ → ℕ) (file_name : String)
    (num_columns num_rows : ℤ) (hc : 0 < num_columns) (hr : 0 ≤ num_rows)
    (hopen : openOk file_name = true) (hfr : okFloatRepr fr) :
    ∃ (ts : List ColType) (records : List (List Char)),
      ts = (chooseColumns g 0 num_columns.toNat).1 ∧
      generate_csv openOk fr g file_name num_columns num_rows = Except.ok records ∧
      records.tail =
        (genRows g (chooseColumns g 0 num_columns.toNat).2 ts num_rows.toNat).1.map
          (fun row => writerow (row.map (serializeValue fr))) ∧
      ∀ l ∈ records.tail, ∃ body fields,
        l = body ++ ['\r', '\n'] ∧
        body = joinComma fields ∧
        splitComma body = fields ∧
        fields.length = num_columns.toNat := by
  refine ⟨(chooseColumns g 0 num_columns.toNat).1,
    writerow (column_headers (chooseColumns g 0 num_columns.toNat).1) ::
      ((genRows g (chooseColumns g 0 num_columns.toNat).2
          (chooseColumns g 0 num_columns.toNat).1 num_rows.toNat).1.map
        fun row => writerow (row.map (serializeValue fr))),
    rfl, ?_, ?_, ?_⟩
  · simp only [generate_csv, hopen, if_true]
  · rfl
  · intro l hl
    rw [List.tail_cons] at hl
    rcases List.mem_map.mp hl with ⟨row, hrow, rfl⟩
    have hclean := row_serialized_clean fr hfr g _ _ _ row hrow
    refine ⟨joinComma (row.map (serializeValue fr)), row.map (serializeValue fr),
      ?_, rfl, ?_, ?_⟩
    · rw [writerow_eq_plain hclean]; rfl
    · refine splitComma_joinComma _ ?_ ?_
      · have hlen : (row.map (serializeValue fr)).length = num_columns.toNat := by
          rcases genRows_rows g _ _ _ row hrow with ⟨q, rfl⟩
          simp [genRow_length, chooseColumns_length]
        have hpos : 0 < (row.map (serializeValue fr)).length := by omega
        exact List.length_pos.mp hpos
      · intro f hf c hcf
        exact ((isSpecial_false_iff c).mp (hclean f hf c hcf)).1
    · rcases genRows_rows g _ _ _ row hrow with ⟨q, rfl⟩
      simp [genRow_length, chooseColumns_length]

/-- Claim C4: every value generated for a column of type `integer`, in every
row of every run, is an integer in the closed range `[-1000000, 1000000]`. -/
theorem c4_integer_range (g : ℕ → ℕ) (p : ℕ) (ts : List ColType) (n : ℕ) :
    ∀ row ∈ (genRows g p ts n).1, ∀ v ∈ row, ∀ i : ℤ, v = Value.int i →
      -1000000 ≤ i ∧ i ≤ 1000000 := by
  intro row hrow v hv i hvi
  rcases genRows_rows g ts n p row hrow with ⟨q, rfl⟩
  rcases genRow_cells g ts q v hv with ⟨q', t, _, rfl⟩
  exact genValue_int g q' t i hvi

/-- Claim C5: every value generated for a column of type `text`, in every row
of every run, is a string of ASCII letters only (upper or lower case, drawn
from `string.ascii_letters`) whose length is between 5 and 20 inclusive. -/
theorem c5_text_shape (g : ℕ → ℕ) (p : ℕ) (ts : List ColType) (n : ℕ) :
    ∀ row ∈ (genRows g p ts n).1, ∀ v ∈ row, ∀ s : List Char, v = Value.text s →
      5 ≤ s.length ∧ s.length ≤ 20 ∧ (∀ c ∈ s, c ∈ ascii_letters) ∧
        ∀ c ∈ s, c.isAlpha = true := by
  intro row hrow v hv s hvs
  rcases genRows_rows g ts n p row hrow with ⟨q, rfl⟩
  rcases genRow_cells g ts q v hv with ⟨q', t, _, rfl⟩
  rcases genValue_text g q' t s hvs with ⟨h1, h2, h3⟩
  exact ⟨h1, h2, h3, fun c hc => letter_isAlpha c (h3 c hc)⟩

/-- Claim C7: if the destination cannot be opened for writing, `generate_csv`
fails with the single `FileWriteError` kind, surfaced directly (not retried);
no other kind of error can be reported, and a run whose open succeeds reports
no error at all. -/
theorem c7_error_taxonomy
    (openOk : String → Bool) (fr : ℚ → List Char) (g : ℕ → ℕ) (file_name : String)
    (num_columns num_rows : ℤ) :
    (openOk file_name = false →
      generate_csv openOk fr g file_name num_columns num_rows =
        Except.error FileWriteError.mk) ∧
    (∀ e, generate_csv openOk fr g file_name num_columns num_rows = Except.error e →
      e = FileWriteError.mk) ∧
    (openOk file_name = true →
      ∃ records, generate_csv openOk fr g file_name num_columns num_rows =
        Except.ok records) := by
  refine ⟨?_, ?_, ?_⟩
  · intro h
    simp [generate_csv, h]
  · intro e _
    cases e
    rfl
  · intro h
    exact ⟨writerow (column_headers (chooseColumns g 0 num_columns.toNat).1) ::
        ((genRows g (chooseColumns g 0 num_columns.toNat).2
            (chooseColumns g 0 num_columns.toNat).1 num_rows.toNat).1.map
          fun row => writerow (row.map (serializeValue fr))),
      by simp only [generate_csv, h, if_true]⟩

/-- Claim C8: run as a standalone program with no arguments, the script calls
the generator with exactly the literal defaults: file path
`"random_data.csv"`, 5 columns, and 10000 rows. -/
theorem c8_main_defaults (openOk : String → Bool) (fr : ℚ → List Char) (g : ℕ → ℕ) :
    main_run openOk fr g = generate_csv openOk fr g "random_data.csv" 5 10000 ∧
    main_file_name = "random_data.csv" ∧ main_num_columns = 5 ∧
    main_num_rows = 10000 :=
  ⟨rfl, rfl, rfl, rfl⟩

/-- Claim C9: no generated value — serialised integer, float (given a float
serialiser whose output never contains a special character, as with Python's
`repr` of a finite double), or text — contains the delimiter, the quote
character, or a line break, so `QUOTE_MINIMAL` never quotes a field and every
record of a successful run is exactly the plain comma-join of its fields. -/
theorem c9_no_quoting
    (openOk : String → Bool) (fr : ℚ → List Char) (g : ℕ → ℕ) (file_name : String)
    (num_columns num_rows : ℤ)
    (hopen : openOk file_name = true) (hfr : okFloatRepr fr) :
    ∃ (ts : List ColType) (records : List (List Char)),
      ts = (chooseColumns g 0 num_columns.toNat).1 ∧
      generate_csv openOk fr g file_name num_columns num_rows = Except.ok records ∧
      records =
        plainWriterow (column_headers ts) ::
          ((genRows g (chooseColumns g 0 num_columns.toNat).2 ts num_rows.toNat).1.map
            fun row => plainWriterow (row.map (serializeValue fr))) ∧
      (∀ f ∈ column_headers ts, quoteField f = f) ∧
      ∀ row ∈ (genRows g (chooseColumns g 0 num_columns.toNat).2 ts num_rows.toNat).1,
        ∀ v ∈ row, quoteField (serializeValue fr v) = serializeValue fr v := by
  refine ⟨(chooseColumns g 0 num_columns.toNat).1,
    writerow (column_headers (chooseColumns g 0 num_columns.toNat).1) ::
      ((genRows g (chooseColumns g 0 num_columns.toNat).2
          (chooseColumns g 0 num_columns.toNat).1 num_rows.toNat).1.map
        fun row => writerow (row.map (serializeValue fr))),
    rfl, ?_, ?_, ?_, ?_⟩
  · simp only [generate_csv, hopen, if_true]
  · have hh : ∀ f ∈ column_headers (chooseColumns g 0 num_columns.toNat).1,
        ∀ c ∈ f, isSpecial c = false := column_headers_clean _ 0
    rw [writerow_eq_plain hh]
    congr 1
    exact List.map_congr_left fun row hrow =>
      writerow_eq_plain (row_serialized_clean fr hfr g _ _ _ row hrow)
  · intro f hf
    exact quoteField_eq_self (column_headers_clean _ 0 f hf)
  · intro row hrow v hv
    rcases genRows_rows g _ _ _ row hrow with ⟨q, rfl⟩
    rcases genRow_cells g _ q v hv with ⟨q', t, _, rfl⟩
    exact quoteField_eq_self (serialize_genValue_clean fr hfr g q' t)

/-- Claim C10: for every negative `num_rows`, `generate_csv` does not fail and
behaves exactly as `num_rows = 0` (Python's `range` of a negative count is
empty): it writes the header record and zero data records. -/
theorem c10_negative_rows
    (openOk : String → Bool) (fr : ℚ → List Char) (g : ℕ → ℕ) (file_name : String)
    (num_columns num_rows : ℤ) (hneg : num_rows < 0) :
    generate_csv openOk fr g file_name num_columns num_rows =
      generate_csv openOk fr g file_name num_columns 0 ∧
    (openOk file_name = true →
      generate_csv openOk fr g file_name num_columns num_rows =
        Except.ok [writerow (column_headers (chooseColumns g 0 num_columns.toNat).1)]) := by
  have h0 : num_rows.toNat = 0 := Int.toNat_of_nonpos hneg.le
  constructor
  · unfold generate_csv
    rw [h0]
    exact rfl
  · intro hopen
    simp only [generate_csv, hopen, if_true, h0, genRows]
    simp

/-! ### Witnesses: the claim theorems applied at concrete inputs -/

/-- Witness for C1 at `generate_csv openT fr0 g0 "t.csv" 2 3`. -/
theorem c1_header_type_consistent_witness :
    ∃ (ts : List ColType) (records : List (List Char)),
      ts = (chooseColumns g0 0 (2 : ℤ).toNat).1 ∧
      ts.length = (2 : ℤ).toNat ∧
      generate_csv openT fr0 g0 "t.csv" 2 3 = Except.ok records ∧
      records =
        writerow (column_headers ts) ::
          ((genRows g0 (chooseColumns g0 0 (2 : ℤ).toNat).2 ts (3 : ℤ).toNat).1.map
            fun row => writerow (row.map (serializeValue fr0))) ∧
      (∀ i, i < ts.length →
        (∃! t : ColType, (column_headers ts).getD i [] = header_label i t) ∧
        (column_headers ts).getD i [] = header_label i (ts.getD i ColType.integer)) ∧
      ∀ row ∈ (genRows g0 (chooseColumns g0 0 (2 : ℤ).toNat).2 ts (3 : ℤ).toNat).1,
        row.length = ts.length ∧
        ∀ i, i < ts.length →
          hasType (row.getD i (Value.int 0)) (ts.getD i ColType.integer) = true :=
  c1_header_type_consistent openT fr0 g0 "t.csv" 2 3 (by decide) (by decide) rfl

/-- Witness for C2 at `generate_csv openT fr0 g0 "t.csv" 2 3`. -/
theorem c2_line_count_witness :
    ∃ (ts : List ColType) (records : List (List Char)),
      ts = (chooseColumns g0 0 (2 : ℤ).toNat).1 ∧
      generate_csv openT fr0 g0 "t.csv" 2 3 = Except.ok records ∧
      records.length = (3 : ℤ).toNat + 1 ∧
      records.getD 0 [] = writerow (column_headers ts) ∧
      records.tail =
        (genRows g0 (chooseColumns g0 0 (2 : ℤ).toNat).2 ts (3 : ℤ).toNat).1.map
          (fun row => writerow (row.map (serializeValue fr0))) ∧
      ((3 : ℤ) = 0 → records = [writerow (column_headers ts)]) ∧
      ∀ l ∈ records, ∃ body, l = body ++ ['\r', '\n'] ∧
        ∀ c ∈ body, c ≠ '\r' ∧ c ≠ '\n' :=
  c2_line_count openT fr0 g0 "t.csv" 2 3 (by decide) (by decide) rfl fr0_ok

/-- Witness for C3 at `generate_csv openT fr0 g0 "t.csv" 2 3`. -/
theorem c3_field_count_witness :
    ∃ (ts : List ColType) (records : List (List Char)),
      ts = (chooseColumns g0 0 (2 : ℤ).toNat).1 ∧
      generate_csv openT fr0 g0 "t.csv" 2 3 = Except.ok records ∧
      records.tail =
        (genRows g0 (chooseColumns g0 0 (2 : ℤ).toNat).2 ts (3 : ℤ).toNat).1.map
          (fun row => writerow (row.map (serializeValue fr0))) ∧
      ∀ l ∈ records.tail, ∃ body fields,
        l = body ++ ['\r', '\n'] ∧
        body = joinComma fields ∧
        splitComma body = fields ∧
        fields.length = (2 : ℤ).toNat :=
  c3_field_count openT fr0 g0 "t.csv" 2 3 (by decide) (by decide) rfl fr0_ok

/-- Witness for C4: the integer cell of a concrete one-column, one-row run. -/
theorem c4_integer_range_witness :
    -1000000 ≤ (-1000000 : ℤ) ∧ (-1000000 : ℤ) ≤ 1000000 :=
  c4_integer_range g0 0 [ColType.integer] 1 [Value.int (-1000000)] (by decide)
    (Value.int (-1000000)) (by decide) (-1000000) rfl

/-- Witness for C5: the text cell of a concrete one-column, one-row run. -/
theorem c5_text_shape_witness :
    5 ≤ (['a', 'a', 'a', 'a', 'a'] : List Char).length ∧
      (['a', 'a', 'a', 'a', 'a'] : List Char).length ≤ 20 ∧
      (∀ c ∈ (['a', 'a', 'a', 'a', 'a'] : List Char), c ∈ ascii_letters) ∧
      ∀ c ∈ (['a', 'a', 'a', 'a', 'a'] : List Char), c.isAlpha = true :=
  c5_text_shape g0 0 [ColType.text] 1 [Value.text ['a', 'a', 'a', 'a', 'a']]
    (by decide) (Value.text ['a', 'a', 'a', 'a', 'a']) (by decide)
    ['a', 'a', 'a', 'a', 'a'] rfl

/-- Witness for C7 at concrete inputs. -/
theorem c7_error_taxonomy_witness :
    (openT "t.csv" = false →
      generate_csv openT fr0 g0 "t.csv" 2 3 = Except.error FileWriteError.mk) ∧
    (∀ e, generate_csv openT fr0 g0 "t.csv" 2 3 = Except.error e →
      e = FileWriteError.mk) ∧
    (openT "t.csv" = true →
      ∃ records, generate_csv openT fr0 g0 "t.csv" 2 3 = Except.ok records) :=
  c7_error_taxonomy openT fr0 g0 "t.csv" 2 3

/-- Witness for C9 at `generate_csv openT fr0 g0 "t.csv" 2 3`. -/
theorem c9_no_quoting_witness :
    ∃ (ts : List ColType) (records : List (List Char)),
      ts = (chooseColumns g0 0 (2 : ℤ).toNat).1 ∧
      generate_csv openT fr0 g0 "t.csv" 2 3 = Except.ok records ∧
      records =
        plainWriterow (column_headers ts) ::
          ((genRows g0 (chooseColumns g0 0 (2 : ℤ).toNat).2 ts (3 : ℤ).toNat).1.map
            fun row => plainWriterow (row.map (serializeValue fr0))) ∧
      (∀ f ∈ column_headers ts, quoteField f = f) ∧
      ∀ row ∈ (genRows g0 (chooseColumns g0 0 (2 : ℤ).toNat).2 ts (3 : ℤ).toNat).1,
        ∀ v ∈ row, quoteField (serializeValue fr0 v) = serializeValue fr0 v :=
  c9_no_quoting openT fr0 g0 "t.csv" 2 3 rfl fr0_ok

/-- Witness for C10 at `num_rows = -1`. -/
theorem c10_negative_rows_witness :
    generate_csv openT fr0 g0 "t.csv" 2 (-1) =
      generate_csv openT fr0 g0 "t.csv" 2 0 ∧
    (openT "t.csv" = true →
      generate_csv openT fr0 g0 "t.csv" 2 (-1) =
        Except.ok [writerow (column_headers (chooseColumns g0 0 (2 : ℤ).toNat).1)]) :=
  c10_negative_rows openT fr0 g0 "t.csv" 2 (-1) (by decide)

end CsvGen
